import Mathlib

/-!
Verification of the chess-board prototype (src/chess/src/main.rs).

The Rust program is shallowly embedded below: constants, the `Tile`,
`Pawn` and `Board` data model, `Board::new`, `Board::render` (modelled as
the list of draw commands it issues), `Board::handle_click`,
`Board::valid_move`, `Board::clear_selections` and
`Board::clear_highlights`.  Rust `i32` division truncates toward zero, so
it is modelled by `Int.tdiv`; the `as usize` cast of an `i32` is the value
modulo 2^64.  SDL texture handles are owned by the rendering collaborator
and carry no game state, so they are omitted from the embedding.
-/

/-- `const TILE_SIZE: i32 = 100;` -/
def TILE_SIZE : Int := 100

/-- `const PIECE_SIZE: i32 = 90;` -/
def PIECE_SIZE : Int := 90

/-- `const BOARD_SIZE: i32 = 8;` -/
def BOARD_SIZE : Int := 8

/-- An SDL `Rect`: origin in pixels (i32) and an unsigned width/height. -/
structure Rect where
  x : Int
  y : Int
  w : Nat
  h : Nat
deriving DecidableEq, Repr

/-- `Rect::new(x, y, w, h)`. -/
def Rect.new (x y : Int) (w h : Nat) : Rect := ⟨x, y, w, h⟩

/-- `enum TileColor { Black, White }` -/
inductive TileColor where
  | Black
  | White
deriving DecidableEq, Repr

/-- `enum PieceColor { Black, White }` -/
inductive PieceColor where
  | Black
  | White
deriving DecidableEq, Repr

/-- `enum PieceType { Pawn, Queen, Rook, Knight, Bishop, King }` -/
inductive PieceType where
  | Pawn
  | Queen
  | Rook
  | Knight
  | Bishop
  | King
deriving DecidableEq, Repr

/-- `struct Tile` (the `rect: Rect` field plus its flags). -/
structure Tile where
  rect : Rect
  tile_color : TileColor
  is_occupied : Bool
  is_highlighted : Bool
deriving DecidableEq, Repr

/-- `struct Pawn` without the SDL `texture` field (an opaque asset handle
owned by the rendering collaborator, carrying no game state). -/
structure Pawn where
  rect : Rect
  row : Int
  col : Int
  is_selected : Bool
  has_moved : Bool
  color : PieceColor
  piece_type : PieceType
deriving DecidableEq, Repr

/-- `Pawn::new(texture_creator, is_white, row, col)`: the texture load is
dropped (asset concern of the collaborator); every other field is set
exactly as in the source. -/
def Pawn.new (is_white : Bool) (row col : Int) : Pawn :=
  { rect := Rect.new (col * TILE_SIZE) (row * TILE_SIZE) PIECE_SIZE.toNat PIECE_SIZE.toNat
    row := row
    col := col
    is_selected := false
    has_moved := false
    color := if is_white then PieceColor.White else PieceColor.Black
    piece_type := PieceType.Pawn }

/-- `struct Board` : `tiles: Vec<Vec<Tile>>`, `pawns: Vec<Pawn>`. -/
structure Board where
  tiles : List (List Tile)
  pawns : List Pawn
deriving DecidableEq, Repr

/-- The tile literal built in `Board::new` for loop indices `row`, `col`. -/
def Tile.new (row col : Int) : Tile :=
  { rect := Rect.new (col * TILE_SIZE) (row * TILE_SIZE) TILE_SIZE.toNat TILE_SIZE.toNat
    tile_color := if (row + col) % 2 = 0 then TileColor.White else TileColor.Black
    is_occupied := false
    is_highlighted := false }

/-- `Board::new`: 8×8 tiles from `Tile.new`, then one pawn
`Pawn::new(tc, false, 7, col)` per column `col in 0..BOARD_SIZE`. -/
def Board.new : Board :=
  { tiles := (List.range 8).map fun row =>
      (List.range 8).map fun col => Tile.new (row : Int) (col : Int)
    pawns := (List.range 8).map fun col => Pawn.new false 7 (col : Int) }

/-- A placeholder tile used to give `self.tiles[row][col]` a total
reading; every use is guarded by `valid_move` on an 8×8 board, where the
default is never hit. -/
def Tile.dummy : Tile :=
  { rect := Rect.new 0 0 0 0
    tile_color := TileColor.White
    is_occupied := false
    is_highlighted := false }

/-- A placeholder pawn playing the same role for `pawns` indexing. -/
def Pawn.dummy : Pawn := Pawn.new false 0 0

/-- The indexing `self.tiles[row][col]`. -/
def Board.tileAt (b : Board) (row col : Nat) : Tile :=
  (b.tiles.getD row []).getD col Tile.dummy

/-- Rust truncating `i32` division, `mouse_x / TILE_SIZE`. -/
def rust_div (a b : Int) : Int := Int.tdiv a b

/-- The Rust cast `q as usize` applied to an `i32` value: sign-extend and
reinterpret, i.e. reduce modulo 2^64. -/
def i32_as_usize (q : Int) : Nat := (q % 2 ^ 64).toNat

/-- `Board::valid_move(row, col)`: `row < BOARD_SIZE as usize && col <
BOARD_SIZE as usize`. -/
def Board.valid_move (row col : Nat) : Bool :=
  decide (row < BOARD_SIZE.toNat) && decide (col < BOARD_SIZE.toNat)

/-- `Board::clear_selections`: the body of the function is empty. -/
def Board.clear_selections (b : Board) : Board := b

/-- `Board::clear_highlights`: set `is_highlighted = false` on every tile. -/
def Board.clear_highlights (b : Board) : Board :=
  { b with tiles := b.tiles.map fun r => r.map fun t => { t with is_highlighted := false } }

/-- `Board::handle_click(mouse_x, mouse_y)`: `row = (mouse_x / TILE_SIZE)
as usize`, `col = (mouse_y / TILE_SIZE) as usize`; inside `valid_move`,
when the tile is not highlighted, clear selections and highlights, and if
the tile is occupied do nothing further (the branch is the source's
`TODO: FINISH THIS` placeholder, empty in the source). -/
def Board.handle_click (b : Board) (mouse_x mouse_y : Int) : Board :=
  let row := i32_as_usize (rust_div mouse_x TILE_SIZE)
  let col := i32_as_usize (rust_div mouse_y TILE_SIZE)
  if Board.valid_move row col then
    if !(b.tileAt row col).is_highlighted then
      let b1 := b.clear_selections
      let b2 := b1.clear_highlights
      if (b2.tileAt row col).is_occupied then
        b2
      else
        b2
    else b
  else b

/-- An RGB color, `Color::RGB(r, g, b)`. -/
def Color := Nat × Nat × Nat
deriving DecidableEq, Repr

/-- The draw color `Board::render` selects for one tile: unhighlighted
white tiles get RGB(234,221,202), unhighlighted black tiles
RGB(111,78,55), highlighted white tiles RGB(137,196,244), highlighted
black tiles RGB(112,169,215). -/
def Tile.draw_color (t : Tile) : Color :=
  if !t.is_highlighted then
    if t.tile_color = TileColor.White then (234, 221, 202) else (111, 78, 55)
  else
    if t.tile_color = TileColor.White then (137, 196, 244) else (112, 169, 215)

/-- `Board::render`, modelled as the sequence of `fill_rect` draw commands
it issues to the canvas: for each `row`, `col` in `0..BOARD_SIZE`, the
selected draw color paired with `self.tiles[row][col].rect`. -/
def Board.render (b : Board) : List (Color × Rect) :=
  (List.range 8).flatMap fun row =>
    (List.range 8).map fun col =>
      ((b.tileAt row col).draw_color, (b.tileAt row col).rect)

/-- The pixel-to-cell conversion performed at the top of
`Board::handle_click`: the computed `(row, col)` pair when `valid_move`
accepts it, nothing otherwise. -/
def pixel_to_cell (mouse_x mouse_y : Int) : Option (Nat × Nat) :=
  let row := i32_as_usize (rust_div mouse_x TILE_SIZE)
  let col := i32_as_usize (rust_div mouse_y TILE_SIZE)
  if Board.valid_move row col then some (row, col) else none

/-- The tile draw region built in `Board::new`:
`Rect::new(col * TILE_SIZE, row * TILE_SIZE, TILE_SIZE, TILE_SIZE)`. -/
def cell_to_region (row col : Int) : Rect :=
  Rect.new (col * TILE_SIZE) (row * TILE_SIZE) TILE_SIZE.toNat TILE_SIZE.toNat

example : (Board.new.tileAt 7 0).is_occupied = false := by decide
example : (Board.new.pawns.getD 0 Pawn.dummy).row = 7 := by decide
example : pixel_to_cell 100 0 = some (1, 0) := by decide
example : pixel_to_cell (-50) 0 = some (0, 0) := by decide
example : pixel_to_cell (-150) 0 = none := by decide
example : pixel_to_cell 800 0 = none := by decide

/-! ## Helper lemmas -/

/-- Reading a tile of `clear_highlights b` gives the corresponding tile of
`b` with its highlight flag forced to `false` (the placeholder tile is
unhighlighted, so this also holds out of range). -/
theorem Board.tileAt_clear_highlights (b : Board) (r c : Nat) :
    b.clear_highlights.tileAt r c = { b.tileAt r c with is_highlighted := false } := by
  unfold Board.clear_highlights Board.tileAt
  simp only [List.getD, List.get?_map]
  cases b.tiles.get? r with
  | none => rfl
  | some row =>
    simp only [Option.map_some', Option.getD_some, List.get?_map]
    cases row.get? c with
    | none => rfl
    | some t => rfl

/-- Clearing highlights twice is the same as clearing them once. -/
theorem Board.clear_highlights_self (b : Board) :
    b.clear_highlights.clear_highlights = b.clear_highlights := by
  unfold Board.clear_highlights
  congr 1
  simp only [List.map_map]
  congr 1
  funext r
  simp only [Function.comp_apply, List.map_map]
  congr 1

/-- `handle_click` either leaves the board untouched or replaces it with
`clear_highlights` of it (`clear_selections` has an empty body). -/
theorem Board.handle_click_id_or_clear (b : Board) (x y : Int) :
    b.handle_click x y = b ∨ b.handle_click x y = b.clear_highlights := by
  simp only [Board.handle_click, Board.clear_selections, ite_self]
  split
  · split
    · right; rfl
    · left; rfl
  · left; rfl

/-! ## Claim theorems -/

/-- C7: `clear_highlights` sets every tile's highlighted flag to `false`:
for every board state a highlight query on any tile of the result returns
`false`, and the operation is idempotent. -/
theorem clear_highlights_clears_all (b : Board) (r c : Nat) :
    (b.clear_highlights.tileAt r c).is_highlighted = false ∧
    b.clear_highlights.clear_highlights = b.clear_highlights := by
  constructor
  · rw [Board.tileAt_clear_highlights]
  · exact Board.clear_highlights_self b

/-- C9: for every pixel input, `handle_click` preserves the piece
collection and every tile's rectangle, base color and occupancy; the only
state it can modify is the highlighted flags, and only by setting them to
`false`. -/
theorem handle_click_frame_effect (b : Board) (x y : Int) (r c : Nat) :
    (b.handle_click x y).pawns = b.pawns ∧
    ((b.handle_click x y).tileAt r c).rect = (b.tileAt r c).rect ∧
    ((b.handle_click x y).tileAt r c).tile_color = (b.tileAt r c).tile_color ∧
    ((b.handle_click x y).tileAt r c).is_occupied = (b.tileAt r c).is_occupied ∧
    (((b.handle_click x y).tileAt r c).is_highlighted = (b.tileAt r c).is_highlighted ∨
      ((b.handle_click x y).tileAt r c).is_highlighted = false) := by
  rcases Board.handle_click_id_or_clear b x y with h | h <;> rw [h]
  · exact ⟨rfl, rfl, rfl, rfl, Or.inl rfl⟩
  · rw [Board.tileAt_clear_highlights]
    exact ⟨rfl, rfl, rfl, rfl, Or.inr rfl⟩

/-- A board obtained from `Board.new` by overwriting one tile, used to
build the concrete states the failure theorems evaluate the code on. -/
def Board.set_tile (b : Board) (r c : Nat) (t : Tile) : Board :=
  { b with tiles := b.tiles.set r ((b.tiles.getD r []).set c t) }

/-- The state the spec's move scenario starts from: `Board.new` with pawn
0 selected on its square `(7,0)`, that tile marked occupied, and the
forward square `(6,0)` highlighted as its candidate destination. -/
def move_scenario_board : Board :=
  let b1 := Board.new.set_tile 6 0 { Tile.new 6 0 with is_highlighted := true }
  let b2 := b1.set_tile 7 0 { Tile.new 7 0 with is_occupied := true }
  { b2 with pawns := b2.pawns.set 0 { Pawn.new false 7 0 with is_selected := true } }

/-- C1: with pawn 0 selected at `(7,0)` and cell `(6,0)` highlighted, the
click at pixels `(600, 0)` lands on the highlighted cell `(6,0)`, yet
`handle_click` leaves the board completely unchanged: the pawn is still at
`(7,0)` with `has_moved = false`, the old tile is still occupied, the new
tile is still unoccupied, and the highlight is still set — the
highlighted-destination branch of `handle_click` performs no move. -/
theorem handle_click_on_highlighted_cell_moves_nothing :
    (move_scenario_board.pawns.getD 0 Pawn.dummy).is_selected = true ∧
    (move_scenario_board.tileAt 6 0).is_highlighted = true ∧
    move_scenario_board.handle_click 600 0 = move_scenario_board ∧
    ((move_scenario_board.handle_click 600 0).pawns.getD 0 Pawn.dummy).row = 7 ∧
    ((move_scenario_board.handle_click 600 0).pawns.getD 0 Pawn.dummy).col = 0 ∧
    ((move_scenario_board.handle_click 600 0).pawns.getD 0 Pawn.dummy).has_moved = false ∧
    ((move_scenario_board.handle_click 600 0).tileAt 7 0).is_occupied = true ∧
    ((move_scenario_board.handle_click 600 0).tileAt 6 0).is_occupied = false ∧
    ((move_scenario_board.handle_click 600 0).tileAt 6 0).is_highlighted = true ∧
    ((move_scenario_board.handle_click 600 0).pawns.getD 0 Pawn.dummy).is_selected = true := by
  decide

/-- C2: `Board::new` marks no tile occupied at all: every one of the 64
tiles of the fresh board reports `is_occupied = false`, even though the
construction does place a rank of pawns on row 7 (pawn 0 sits at
`(7, 0)`), so the configured starting squares do not report
`occupied == true`. -/
theorem board_new_marks_no_tile_occupied :
    (∀ r c : Fin 8, (Board.new.tileAt r c).is_occupied = false) ∧
    (Board.new.pawns.getD 0 Pawn.dummy).row = 7 ∧
    (Board.new.pawns.getD 0 Pawn.dummy).col = 0 ∧
    (Board.new.tileAt 7 0).is_occupied = false := by
  decide

/-- C3: the occupancy invariant is already violated in the state produced
by `Board.new` itself: a pawn of the collection has position `(7,0)`, yet
`tiles[7][0].is_occupied = false`. -/
theorem occupancy_invariant_violated_at_construction :
    ∃ p ∈ Board.new.pawns,
      p.row = 7 ∧ p.col = 0 ∧ (Board.new.tileAt 7 0).is_occupied = false := by
  decide

/-- `Board.new` with pawn 0 selected, the state on which the
`clear_selections` stub is evaluated. -/
def selected_board : Board :=
  { Board.new with
    pawns := Board.new.pawns.set 0 { Pawn.new false 7 0 with is_selected := true } }

/-- C6: `clear_selections` is a no-op on every board (its body is empty),
so on a board with pawn 0 selected the pawn is still selected after the
call; the call is trivially idempotent, but it does not deselect. -/
theorem clear_selections_leaves_selection :
    (∀ b : Board, b.clear_selections = b) ∧
    (selected_board.pawns.getD 0 Pawn.dummy).is_selected = true ∧
    (selected_board.clear_selections.pawns.getD 0 Pawn.dummy).is_selected = true :=
  ⟨fun _ => rfl, by decide, by decide⟩

/-- C10: a click whose x pixel coordinate is strictly between `-TILE_SIZE`
and 0 is not rejected: truncating division toward zero sends it to row 0,
the `valid_move` bounds check accepts it, and `handle_click` processes it
exactly as a click with `mouse_x = 0`, i.e. as a click on row 0. -/
theorem negative_pixel_click_in_bounds (x : Int) (h1 : -100 < x) (h2 : x < 0) :
    rust_div x TILE_SIZE = 0 ∧
    Board.valid_move (i32_as_usize (rust_div x TILE_SIZE)) 0 = true ∧
    ∀ (b : Board) (y : Int), b.handle_click x y = b.handle_click 0 y := by
  cases x with
  | ofNat n => exact absurd h2 (Int.not_lt.mpr (Int.ofNat_nonneg n))
  | negSucc m =>
    rw [Int.negSucc_eq] at h1
    have hm : (m + 1) / 100 = 0 := Nat.div_eq_of_lt (by omega)
    have hdiv : rust_div (Int.negSucc m) TILE_SIZE = 0 := by
      rw [show rust_div (Int.negSucc m) TILE_SIZE = -Int.ofNat ((m + 1) / 100) from rfl, hm]
      rfl
    refine ⟨hdiv, by rw [hdiv]; decide, ?_⟩
    intro b y
    unfold Board.handle_click
    rw [hdiv, show rust_div 0 TILE_SIZE = 0 from rfl]

/-- Concrete instance of the negative-coordinate acceptance at
`mouse_x = -50`. -/
theorem negative_pixel_click_in_bounds_witness :
    rust_div (-50) TILE_SIZE = 0 ∧
    Board.valid_move (i32_as_usize (rust_div (-50) TILE_SIZE)) 0 = true ∧
    Board.new.handle_click (-50) 0 = Board.new.handle_click 0 0 :=
  ⟨(negative_pixel_click_in_bounds (-50) (by decide) (by decide)).1,
   (negative_pixel_click_in_bounds (-50) (by decide) (by decide)).2.1,
   (negative_pixel_click_in_bounds (-50) (by decide) (by decide)).2.2 Board.new 0⟩

/-- If the truncated quotient of an `i32` pixel coordinate by `TILE_SIZE`
lies outside `[0, 8)`, then after the `as usize` cast it is at least 8:
nonnegative quotients keep their value and negative quotients wrap to at
least `2^64 - 2^31`. -/
theorem usize_of_div_ge8 (x : Int) (hx1 : -2 ^ 31 ≤ x) (hx2 : x < 2 ^ 31)
    (h : ¬ (0 ≤ rust_div x TILE_SIZE ∧ rust_div x TILE_SIZE < 8)) :
    8 ≤ i32_as_usize (rust_div x TILE_SIZE) := by
  cases x with
  | ofNat n =>
    rw [show rust_div (Int.ofNat n) TILE_SIZE = Int.ofNat (n / 100) from rfl] at h ⊢
    rw [Int.ofNat_eq_natCast] at h ⊢
    rw [Int.ofNat_eq_natCast] at hx2
    unfold i32_as_usize
    have hn : n / 100 ≤ n := Nat.div_le_self _ _
    omega
  | negSucc m =>
    rw [show rust_div (Int.negSucc m) TILE_SIZE = -Int.ofNat ((m + 1) / 100) from rfl] at h ⊢
    rw [Int.ofNat_eq_natCast] at h ⊢
    rw [Int.negSucc_eq] at hx1
    unfold i32_as_usize
    have hk : (m + 1) / 100 ≤ m + 1 := Nat.div_le_self _ _
    omega

/-- C5: a click whose computed row or computed column (truncated `i32`
division of the pixel coordinate by `TILE_SIZE`) falls outside `[0, 8)`
fails the `valid_move` bounds check, and `handle_click` returns the board
completely unchanged — every tile flag and the whole piece collection. -/
theorem handle_click_out_of_bounds_noop (b : Board) (x y : Int)
    (hx1 : -2 ^ 31 ≤ x) (hx2 : x < 2 ^ 31) (hy1 : -2 ^ 31 ≤ y) (hy2 : y < 2 ^ 31)
    (h : ¬ (0 ≤ rust_div x TILE_SIZE ∧ rust_div x TILE_SIZE < 8) ∨
         ¬ (0 ≤ rust_div y TILE_SIZE ∧ rust_div y TILE_SIZE < 8)) :
    b.handle_click x y = b := by
  have hvm : Board.valid_move (i32_as_usize (rust_div x TILE_SIZE))
      (i32_as_usize (rust_div y TILE_SIZE)) = false := by
    unfold Board.valid_move
    rcases h with h | h
    · have h8 := usize_of_div_ge8 x hx1 hx2 h
      simp only [Bool.and_eq_false_iff, decide_eq_false_iff_not, BOARD_SIZE]
      left
      omega
    · have h8 := usize_of_div_ge8 y hy1 hy2 h
      simp only [Bool.and_eq_false_iff, decide_eq_false_iff_not, BOARD_SIZE]
      right
      omega
  unfold Board.handle_click
  simp [hvm]

/-- Concrete instance of the out-of-bounds no-op at pixels `(900, 0)`,
whose computed row is 8. -/
theorem handle_click_out_of_bounds_noop_witness :
    Board.new.handle_click 900 0 = Board.new :=
  handle_click_out_of_bounds_noop Board.new 900 0 (by decide) (by decide) (by decide)
    (by decide) (Or.inl (by decide))

/-- C8: the base color assigned at construction is `(row + col) % 2`
(White when even, Black when odd); the draw command `render` issues for a
tile pairs its derived color with its rectangle; and the derived color is
one of four fixed RGB constants chosen solely by the pair (base color,
highlight flag). -/
theorem render_color_scheme (b : Board) (r c : Nat) (hr : r < 8) (hc : c < 8) :
    (Board.new.tileAt r c).tile_color =
      (if (r + c) % 2 = 0 then TileColor.White else TileColor.Black) ∧
    ((b.tileAt r c).draw_color, (b.tileAt r c).rect) ∈ b.render ∧
    ∀ t : Tile, t.draw_color =
      (match t.tile_color, t.is_highlighted with
        | TileColor.White, false => ((234, 221, 202) : Color)
        | TileColor.Black, false => ((111, 78, 55) : Color)
        | TileColor.White, true => ((137, 196, 244) : Color)
        | TileColor.Black, true => ((112, 169, 215) : Color)) := by
  refine ⟨?_, ?_, ?_⟩
  · have hall : ∀ rf cf : Fin 8, (Board.new.tileAt rf cf).tile_color =
        (if ((rf : Nat) + (cf : Nat)) % 2 = 0 then TileColor.White else TileColor.Black) := by
      decide
    exact hall ⟨r, hr⟩ ⟨c, hc⟩
  · unfold Board.render
    simp only [List.mem_flatMap, List.mem_map, List.mem_range]
    exact ⟨r, hr, c, hc, rfl⟩
  · intro t
    unfold Tile.draw_color
    cases h1 : t.tile_color <;> cases h2 : t.is_highlighted <;> simp [h1, h2]

/-- Concrete instance of the color scheme at cell `(0, 1)` of the fresh
board and at the placeholder tile. -/
theorem render_color_scheme_witness :
    (Board.new.tileAt 0 1).tile_color =
      (if (0 + 1) % 2 = 0 then TileColor.White else TileColor.Black) ∧
    ((Board.new.tileAt 0 1).draw_color, (Board.new.tileAt 0 1).rect) ∈ Board.new.render ∧
    Tile.dummy.draw_color =
      (match Tile.dummy.tile_color, Tile.dummy.is_highlighted with
        | TileColor.White, false => ((234, 221, 202) : Color)
        | TileColor.Black, false => ((111, 78, 55) : Color)
        | TileColor.White, true => ((137, 196, 244) : Color)
        | TileColor.Black, true => ((112, 169, 215) : Color)) :=
  ⟨(render_color_scheme Board.new 0 1 (by decide) (by decide)).1,
   (render_color_scheme Board.new 0 1 (by decide) (by decide)).2.1,
   (render_color_scheme Board.new 0 1 (by decide) (by decide)).2.2 Tile.dummy⟩

/-- C4 counterexample: the pixel-to-cell round trip is not the identity on
tile regions.  The tile region of cell `(row, col) = (0, 1)` has origin
`(x, y) = (100, 0)`; `pixel_to_cell` maps that origin to cell `(1, 0)`
(it computes the row from the x pixel while the region puts the column on
the x axis), whose region has origin `(0, 100)` — a different region. -/
theorem pixel_round_trip_not_identity :
    ¬ ((pixel_to_cell (cell_to_region 0 1).x (cell_to_region 0 1).y).map
        (fun p => cell_to_region (p.1 : Int) (p.2 : Int)) = some (cell_to_region 0 1)) := by
  decide

/-- C4 amended: for pixels in `[0, 800)` the conversion succeeds exactly
when both truncated quotients lie in `[0, 8)` (which always holds there),
and the composed map sends the tile region of cell `(row, col)` to the
tile region of the transposed cell `(col, row)`, not to itself. -/
theorem pixel_cell_region_transposed (row col : Nat) (hr : row < 8) (hc : col < 8) :
    (∀ x y : Int, 0 ≤ x → x < 800 → 0 ≤ y → y < 800 →
      ((pixel_to_cell x y).isSome = true ↔
        (0 ≤ rust_div x TILE_SIZE ∧ rust_div x TILE_SIZE < 8 ∧
         0 ≤ rust_div y TILE_SIZE ∧ rust_div y TILE_SIZE < 8))) ∧
    (pixel_to_cell (cell_to_region (row : Int) (col : Int)).x
        (cell_to_region (row : Int) (col : Int)).y).map
      (fun p => cell_to_region (p.1 : Int) (p.2 : Int)) =
      some (cell_to_region (col : Int) (row : Int)) := by
  constructor
  · intro x y hx0 hx8 hy0 hy8
    obtain ⟨n, rfl⟩ := Int.eq_ofNat_of_zero_le hx0
    obtain ⟨k, rfl⟩ := Int.eq_ofNat_of_zero_le hy0
    unfold pixel_to_cell Board.valid_move i32_as_usize
    rw [show rust_div ((n : Nat) : Int) TILE_SIZE = ((n / 100 : Nat) : Int) from rfl,
        show rust_div ((k : Nat) : Int) TILE_SIZE = ((k / 100 : Nat) : Int) from rfl]
    have e1 : (((n / 100 : Nat) : Int) % 2 ^ 64).toNat = n / 100 := by omega
    have e2 : (((k / 100 : Nat) : Int) % 2 ^ 64).toNat = k / 100 := by omega
    rw [e1, e2]
    have h1 : n / 100 < 8 := by omega
    have h2 : k / 100 < 8 := by omega
    rw [if_pos (by simp [BOARD_SIZE]; omega)]
    simp only [Option.isSome_some, true_iff]
    refine ⟨by omega, by omega, by omega, by omega⟩
  · have hall : ∀ rf cf : Fin 8,
        (pixel_to_cell (cell_to_region ((rf : Nat) : Int) ((cf : Nat) : Int)).x
            (cell_to_region ((rf : Nat) : Int) ((cf : Nat) : Int)).y).map
          (fun p => cell_to_region (p.1 : Int) (p.2 : Int)) =
          some (cell_to_region ((cf : Nat) : Int) ((rf : Nat) : Int)) := by
      decide
    exact hall ⟨row, hr⟩ ⟨col, hc⟩

/-- Concrete instance of the amended round-trip behaviour: pixels
`(150, 250)` convert successfully, and the region of cell `(0, 1)` round
trips to the region of cell `(1, 0)`. -/
theorem pixel_cell_region_transposed_witness :
    ((pixel_to_cell 150 250).isSome = true ↔
      (0 ≤ rust_div 150 TILE_SIZE ∧ rust_div 150 TILE_SIZE < 8 ∧
       0 ≤ rust_div 250 TILE_SIZE ∧ rust_div 250 TILE_SIZE < 8)) ∧
    (pixel_to_cell (cell_to_region ((0 : Nat) : Int) ((1 : Nat) : Int)).x
        (cell_to_region ((0 : Nat) : Int) ((1 : Nat) : Int)).y).map
      (fun p => cell_to_region (p.1 : Int) (p.2 : Int)) =
      some (cell_to_region ((1 : Nat) : Int) ((0 : Nat) : Int)) :=
  ⟨(pixel_cell_region_transposed 0 1 (by decide) (by decide)).1 150 250
      (by decide) (by decide) (by decide) (by decide),
   (pixel_cell_region_transposed 0 1 (by decide) (by decide)).2⟩
